import Mathlib

/-!
# Verification of the dbf_to_sql CDC core

Shallow embedding of the change-data-capture pipeline of the `dbf_to_sql`
repository: the record-level delta detector (`src/dbf/delta.py`), the DBF
record reader's checksum computation (`src/dbf/reader.py`), the sync engine's
per-file algorithm and upsert policy (`src/dbf/sync.py`), and the file
watcher's event handling (`src/dbf/watcher.py`).

Python dictionaries with integer keys are embedded as a finite key set with a
valuation; Python dicts used as attribute maps are embedded as association
lists with insert-or-replace update, mirroring dict assignment.  The SQLAlchemy
session is embedded as a pair (committed state, pending state) with `commit`
and `rollback` moving between them.
-/

namespace DbfToSql

/-! ## Delta detector (src/dbf/delta.py) -/

/-- A Python `Dict[int, int]` checksum map: its key set together with the
value read at each key (values outside `keys` are never consulted). -/
structure ChecksumMap where
  keys : Finset ℕ
  val : ℕ → ℕ

/-- Result of `DeltaDetector.compute_deltas`: three lists of record indices. -/
structure Deltas where
  inserts : List ℕ
  updates : List ℕ
  deletes : List ℕ
deriving DecidableEq, Repr

/-- `DeltaDetector.compute_deltas` (delta.py lines 6–38): set differences of
the key sets, the common keys with differing values, each returned `sorted`. -/
def compute_deltas (old_checksums new_checksums : ChecksumMap) : Deltas :=
  let old_indices := old_checksums.keys
  let new_indices := new_checksums.keys
  let inserts := new_indices \ old_indices
  let deletes := old_indices \ new_indices
  let common_indices := old_indices ∩ new_indices
  let updates := common_indices.filter
    (fun idx => old_checksums.val idx ≠ new_checksums.val idx)
  { inserts := inserts.sort (· ≤ ·)
    updates := updates.sort (· ≤ ·)
    deletes := deletes.sort (· ≤ ·) }

/-- `DeltaDetector.has_changes` (delta.py lines 49–51):
`bool(deltas['inserts'] or deltas['updates'] or deltas['deletes'])`. -/
def has_changes (deltas : Deltas) : Bool :=
  !(deltas.inserts.isEmpty && deltas.updates.isEmpty && deltas.deletes.isEmpty)

/-- The common keys whose checksums agree (the unchanged records). -/
def unchangedKeys (old_checksums new_checksums : ChecksumMap) : Finset ℕ :=
  (old_checksums.keys ∩ new_checksums.keys).filter
    (fun idx => old_checksums.val idx = new_checksums.val idx)

/-- C1: `compute_deltas` returns exactly inserts = keys(new) \ keys(old),
deletes = keys(old) \ keys(new), updates = the common keys with differing
checksums; each list is strictly ascending; the lists are pairwise disjoint;
and their union together with the unchanged common keys is
keys(old) ∪ keys(new).  The detector is a pure function of its two
arguments. -/
theorem compute_deltas_correct (old_checksums new_checksums : ChecksumMap) :
    let d := compute_deltas old_checksums new_checksums
    d.inserts.toFinset = new_checksums.keys \ old_checksums.keys ∧
    d.deletes.toFinset = old_checksums.keys \ new_checksums.keys ∧
    d.updates.toFinset = (old_checksums.keys ∩ new_checksums.keys).filter
      (fun idx => old_checksums.val idx ≠ new_checksums.val idx) ∧
    d.inserts.Sorted (· < ·) ∧ d.updates.Sorted (· < ·) ∧
    d.deletes.Sorted (· < ·) ∧
    Disjoint d.inserts.toFinset d.updates.toFinset ∧
    Disjoint d.inserts.toFinset d.deletes.toFinset ∧
    Disjoint d.updates.toFinset d.deletes.toFinset ∧
    d.inserts.toFinset ∪ d.updates.toFinset ∪ d.deletes.toFinset ∪
        unchangedKeys old_checksums new_checksums =
      old_checksums.keys ∪ new_checksums.keys := by
  intro d
  have hi : d.inserts.toFinset = new_checksums.keys \ old_checksums.keys :=
    Finset.sort_toFinset _ _
  have hd : d.deletes.toFinset = old_checksums.keys \ new_checksums.keys :=
    Finset.sort_toFinset _ _
  have hu : d.updates.toFinset = (old_checksums.keys ∩ new_checksums.keys).filter
      (fun idx => old_checksums.val idx ≠ new_checksums.val idx) :=
    Finset.sort_toFinset _ _
  refine ⟨hi, hd, hu, Finset.sort_sorted_lt _, Finset.sort_sorted_lt _,
    Finset.sort_sorted_lt _, ?_, ?_, ?_, ?_⟩
  · rw [hi, hu]
    rw [Finset.disjoint_left]
    intro a ha hb
    simp only [Finset.mem_sdiff] at ha
    simp only [Finset.mem_filter, Finset.mem_inter] at hb
    exact ha.2 hb.1.1
  · rw [hi, hd]
    rw [Finset.disjoint_left]
    intro a ha hb
    simp only [Finset.mem_sdiff] at ha hb
    exact hb.2 ha.1
  · rw [hu, hd]
    rw [Finset.disjoint_left]
    intro a ha hb
    simp only [Finset.mem_filter, Finset.mem_inter] at ha
    simp only [Finset.mem_sdiff] at hb
    exact hb.2 ha.1.2
  · rw [hi, hd, hu]
    ext a
    simp only [unchangedKeys, Finset.mem_union, Finset.mem_sdiff,
      Finset.mem_filter, Finset.mem_inter]
    by_cases ho : a ∈ old_checksums.keys <;>
      by_cases hn : a ∈ new_checksums.keys <;>
        by_cases hv : old_checksums.val a = new_checksums.val a <;> simp [ho, hn, hv]

/-! ## DBF reader checksums (src/dbf/reader.py) -/

/-- One step of the bitwise CRC-32 (IEEE polynomial `0xEDB88320`, reflected),
as computed by `zlib.crc32`. -/
def crc32Round (c : ℕ) : ℕ :=
  if c % 2 = 1 then (c / 2) ^^^ 0xEDB88320 else c / 2

/-- Fold one byte into a CRC-32 accumulator. -/
def crc32UpdateByte (c b : ℕ) : ℕ := crc32Round^[8] (c ^^^ (b % 256))

/-- `zlib.crc32(data) & 0xffffffff` on a byte string (reader.py line 90): the
standard CRC-32, initial value `0xFFFFFFFF`, final complement.  The `& 0xffffffff`
mask in the source is the identity here since every intermediate value is
already below `2^32`. -/
def crc32 (data : List ℕ) : ℕ :=
  (data.foldl crc32UpdateByte 0xFFFFFFFF) ^^^ 0xFFFFFFFF

/-- `struct.unpack` of a little-endian unsigned integer of `len` bytes at
offset `off` of `bs`; `none` when the slice `bs[off:off+len]` is shorter than
`len` bytes (then `struct.unpack` raises `struct.error`). -/
def readLE (bs : List ℕ) (off len : ℕ) : Option ℕ :=
  if off + len ≤ bs.length then
    some (((bs.drop off).take len).foldr (fun b acc => acc * 256 + b % 256) 0)
  else none

/-- Header decode shared by `inspect_structure` and `compute_record_checksums`
(reader.py lines 79–82): `header = f.read(32)`, then `num_records` from
bytes 4–7 (`<I`), `header_length` from bytes 8–9 (`<H`), `record_length` from
bytes 10–11 (`<H`).  `none` models the `struct.error` raised on a truncated
header. -/
def dbfHeader (file : List ℕ) : Option (ℕ × ℕ × ℕ) :=
  match readLE (file.take 32) 4 4, readLE (file.take 32) 8 2,
      readLE (file.take 32) 10 2 with
  | some num_records, some header_length, some record_length =>
      some (num_records, header_length, record_length)
  | _, _, _ => none

/-- The bytes returned by the `i`-th `f.read(record_length)` after
`f.seek(header_length)` (reader.py lines 85–88).  Sequential short reads only
happen at end of file, so the `i`-th read returns exactly the slice of the
file starting at `header_length + i * record_length`. -/
def recordSlice (file : List ℕ) (header_length record_length i : ℕ) : List ℕ :=
  (file.drop (header_length + i * record_length)).take record_length

/-- `DBFReader.compute_record_checksums` (reader.py lines 72–98): decode the
header, then for each `i in range(num_records)` read a `record_length`-byte
slice and record its CRC-32, skipping any slice that is not exactly
`record_length` bytes long.  Any exception (in particular a truncated header)
is caught and the empty map is returned.  The resulting Python dict is
embedded as its association list in insertion order. -/
def compute_record_checksums (file : List ℕ) : List (ℕ × ℕ) :=
  match dbfHeader file with
  | none => []
  | some (num_records, header_length, record_length) =>
      (List.range num_records).filterMap (fun i =>
        if (recordSlice file header_length record_length i).length = record_length
        then some (i, crc32 (recordSlice file header_length record_length i))
        else none)

/-- Modelled from the spec: the spec's reader error contract names a
`DBFReadError{reason}` type that appears nowhere under `src/`
(§4.1 "Error contract", §7 error taxonomy). -/
inductive DBFReadError
  | truncatedHeader
  | missingMemoSidecar
  | encodingError
deriving DecidableEq, Repr

/-- Modelled from the spec: checksum computation as the spec's error contract
describes it — "All reader operations fail with `DBFReadError{reason}` when
the header is truncated" — i.e. a truncated header yields an error value, not
a normal result. -/
def compute_record_checksums_contract (file : List ℕ) :
    Except DBFReadError (List (ℕ × ℕ)) :=
  match dbfHeader file with
  | none => .error .truncatedHeader
  | some (num_records, header_length, record_length) =>
      .ok ((List.range num_records).filterMap (fun i =>
        if (recordSlice file header_length record_length i).length = record_length
        then some (i, crc32 (recordSlice file header_length record_length i))
        else none))

/-- Association-list lookup over a `filterMap` that tags each produced value
with its (distinct) key. -/
lemma lookup_filterMap {β : Type} (f : ℕ → Option β) (l : List ℕ) (hl : l.Nodup)
    (i : ℕ) :
    List.lookup i (l.filterMap (fun j => (f j).map (fun b => (j, b)))) =
      if i ∈ l then f i else none := by
  induction l with
  | nil => simp
  | cons j rest ih =>
      rw [List.nodup_cons] at hl
      rcases hl with ⟨hj, hrest⟩
      rcases hfj : f j with _ | b
      · rw [List.filterMap_cons, hfj, Option.map_none', ih hrest]
        by_cases hij : i = j
        · subst hij
          simp [hj, hfj]
        · simp [hij]
      · rw [List.filterMap_cons, hfj, Option.map_some']
        by_cases hij : i = j
        · subst hij
          simp [hfj]
        · simp only [List.lookup_cons, beq_false_of_ne hij]
          rw [ih hrest]
          simp [hij]

/-- C3: when the header declares `num_records`, `header_length` and
`record_length`, the checksum map sends index `i` to the CRC-32 of the `i`-th
`record_length`-byte slice after the header exactly when `i < num_records` and
that slice is fully present; a short trailing slice yields no entry. -/
theorem compute_record_checksums_spec (file : List ℕ)
    (num_records header_length record_length : ℕ)
    (h : dbfHeader file = some (num_records, header_length, record_length))
    (i : ℕ) :
    List.lookup i (compute_record_checksums file) =
      if i < num_records ∧
          (recordSlice file header_length record_length i).length = record_length
      then some (crc32 (recordSlice file header_length record_length i))
      else none := by
  have hfun : (fun i =>
      if (recordSlice file header_length record_length i).length = record_length
      then some (i, crc32 (recordSlice file header_length record_length i))
      else none) =
      (fun j => ((fun k =>
        if (recordSlice file header_length record_length k).length = record_length
        then some (crc32 (recordSlice file header_length record_length k))
        else none) j).map (fun b => (j, b))) := by
    funext j
    by_cases hc : (recordSlice file header_length record_length j).length = record_length <;>
      simp [hc]
  simp only [compute_record_checksums, h]
  rw [hfun, lookup_filterMap _ _ (List.nodup_range _)]
  simp only [List.mem_range]
  by_cases h1 : i < num_records <;>
    by_cases h2 : (recordSlice file header_length record_length i).length = record_length <;>
      simp [h1, h2]

/-- A minimal DBF image: 32-byte header declaring one record of length 1
located at offset 32, followed by the single record byte `97`. -/
def fileC3 : List ℕ :=
  [3, 0, 0, 0, 1, 0, 0, 0, 32, 0, 1, 0] ++ List.replicate 20 0 ++ [97]

/-- Witness for C3 at a concrete one-record file: index 0 maps to
`zlib.crc32(b"a") = 3904355907`. -/
theorem compute_record_checksums_spec_witness :
    List.lookup 0 (compute_record_checksums fileC3) = some 3904355907 := by
  rw [compute_record_checksums_spec fileC3 1 32 1 (by decide) 0]
  decide

/-- C4 counterexample: on a truncated header the reader does not fail — it
catches the exception and returns the empty map, a normal result, whereas the
spec's error contract demands a `DBFReadError` failure. -/
theorem reader_truncated_header_returns_normal_result :
    compute_record_checksums [] = [] ∧
    compute_record_checksums_contract [] = .error .truncatedHeader :=
  ⟨rfl, rfl⟩

/-- C4 amended: reader checksum computation never fails; on any file too short
to carry the three header fields it catches the decode error and returns the
empty map (the spec-modelled contract would instead report a truncated
header).  The reader opens the file read-only, so it mutates nothing. -/
theorem compute_record_checksums_total_on_truncated (file : List ℕ)
    (h : file.length < 12) :
    compute_record_checksums file = [] ∧
    compute_record_checksums_contract file = .error .truncatedHeader := by
  have hlen : (file.take 32).length < 12 := by
    simp only [List.length_take]
    omega
  have h10 : readLE (file.take 32) 10 2 = none := by
    unfold readLE
    rw [if_neg]
    omega
  constructor
  · rcases h44 : readLE (file.take 32) 4 4 with _ | a <;>
      rcases h82 : readLE (file.take 32) 8 2 with _ | b <;>
        simp [compute_record_checksums, dbfHeader, h44, h82, h10]
  · rcases h44 : readLE (file.take 32) 4 4 with _ | a <;>
      rcases h82 : readLE (file.take 32) 8 2 with _ | b <;>
        simp [compute_record_checksums_contract, dbfHeader, h44, h82, h10]

/-- Witness for the amended C4 at the concrete 3-byte file `[0, 1, 2]`. -/
theorem compute_record_checksums_total_on_truncated_witness :
    compute_record_checksums [0, 1, 2] = [] ∧
    compute_record_checksums_contract [0, 1, 2] = .error .truncatedHeader :=
  compute_record_checksums_total_on_truncated [0, 1, 2] (by decide)

/-! ## Upsert policy (src/dbf/sync.py, `_upsert_customer` / `_upsert_product`)

DBF record values are embedded as `PyVal`; a Python dict used as an attribute
map is an association list updated by insert-or-replace, as dict assignment
does.  The SQLAlchemy model objects of `src/models.py` (a repository module
not present under `src/`) enter only through `hasattr`; that test is embedded
as membership in a column-name list over which every theorem quantifies. -/

/-- Python `str.lower()` (ASCII data), written over the character list so
that it evaluates by kernel reduction. -/
def lowerStr (s : String) : String := ⟨s.data.map Char.toLower⟩

/-- Python `str.strip()`: drop leading and trailing whitespace. -/
def stripStr (s : String) : String :=
  ⟨((s.data.dropWhile Char.isWhitespace).reverse.dropWhile Char.isWhitespace).reverse⟩

/-- A primitive DBF value as `dbfread` yields it: a string, an integer, or
Python `None`. -/
inductive PyVal
  | vstr (s : String)
  | vint (n : Int)
  | vnone
deriving DecidableEq, Repr

/-- Python truthiness of a `PyVal` (`if not numcli`, `if value`). -/
def truthy : PyVal → Bool
  | .vstr s => s != ""
  | .vint n => n != 0
  | .vnone => false

/-- Python `str()` of a `PyVal`. -/
def pyToString : PyVal → String
  | .vstr s => s
  | .vint n => toString n
  | .vnone => "None"

/-- A row or record: a Python dict from column/field name to value. -/
abbrev Row := List (String × PyVal)

/-- Dict read: first entry with the given key. -/
def dictGet : Row → String → Option PyVal
  | [], _ => none
  | (k', v) :: rest, k => if k' = k then some v else dictGet rest k

/-- Dict assignment `d[k] = v`: replace in place when the key exists,
append otherwise. -/
def dictInsert : Row → String → PyVal → Row
  | [], k, v => [(k, v)]
  | (k', v') :: rest, k, v =>
      if k' = k then (k, v) :: rest else (k', v') :: dictInsert rest k v

/-- String-value cleaning in `_upsert_customer` / `_upsert_movement`
(sync.py lines 197–198, 205–206, 257–258):
`if isinstance(value, str): value = value.strip() if value else None`.
An empty string (falsy) becomes `None`; a non-empty string is stripped —
so a whitespace-only string becomes the empty string, not `None`. -/
def clean_string_value : PyVal → PyVal
  | .vstr s => if s = "" then .vnone else .vstr (stripStr s)
  | v => v

/-- Column-name mapping of `_upsert_product` (sync.py lines 228–231, 236, 243):
`field_mapping.get(key, key.lower())` with `DESC ↦ desc_product` and
`SERIES ↦ series_control`. -/
def field_mapping (k : String) : String :=
  if k = "DESC" then "desc_product"
  else if k = "SERIES" then "series_control"
  else lowerStr k

/-- The `customer_data` dict built on the insert path of `_upsert_customer`
(sync.py lines 201–210): lower-cased keys, cleaned string values, then
`customer_data['numcli'] = numcli`. -/
def customer_insert_data (rec : Row) (numcli : String) : Row :=
  dictInsert
    (rec.foldl (fun d kv => dictInsert d (lowerStr kv.1) (clean_string_value kv.2)) [])
    "numcli" (.vstr numcli)

/-- The `product_data` dict built on the insert path of `_upsert_product`
(sync.py lines 240–244): mapped keys, values stored unmodified (no cleaning
and no `numart` override on this path). -/
def product_insert_data (rec : Row) : Row :=
  rec.foldl (fun d kv => dictInsert d (field_mapping kv.1) kv.2) []

/-- Update path of `_upsert_customer` (sync.py lines 192–199): for each record
field, when the model has the lower-cased attribute, set it to the cleaned
value.  `fields` is the customer model's column set (`hasattr`). -/
def update_customer_row (fields : List String) (r : Row) (rec : Row) : Row :=
  rec.foldl (fun row kv =>
    if fields.contains (lowerStr kv.1)
    then dictInsert row (lowerStr kv.1) (clean_string_value kv.2)
    else row) r

/-- Update path of `_upsert_product` (sync.py lines 233–238): mapped column
name, raw value. -/
def update_product_row (fields : List String) (r : Row) (rec : Row) : Row :=
  rec.foldl (fun row kv =>
    if fields.contains (field_mapping kv.1)
    then dictInsert row (field_mapping kv.1) kv.2
    else row) r

/-- Replace the first list element satisfying `p` (the `.first()` row of the
key-equality query) by its image under `f`. -/
def replaceFirst (p : Row → Bool) (f : Row → Row) : List Row → List Row
  | [] => []
  | r :: rs => if p r then f r :: rs else r :: replaceFirst p f rs

/-- `DBFSyncService._upsert_customer` (sync.py lines 178–212) acting on the
customers table, embedded as a list of rows. -/
def _upsert_customer (fields : List String) (db : List Row) (rec : Row) :
    List Row :=
  match dictGet rec "NUMCLI" with
  | none => db
  | some v =>
      if truthy v = false then db
      else
        let numcli := stripStr (pyToString v)
        if numcli = "" then db
        else
          match db.find? (fun r => decide (dictGet r "numcli" = some (.vstr numcli))) with
          | some _ =>
              replaceFirst (fun r => decide (dictGet r "numcli" = some (.vstr numcli)))
                (fun r => update_customer_row fields r rec) db
          | none => db ++ [customer_insert_data rec numcli]

/-- `DBFSyncService._upsert_product` (sync.py lines 214–247) acting on the
products table. -/
def _upsert_product (fields : List String) (db : List Row) (rec : Row) :
    List Row :=
  match dictGet rec "NUMART" with
  | none => db
  | some v =>
      if truthy v = false then db
      else
        let numart := stripStr (pyToString v)
        if numart = "" then db
        else
          match db.find? (fun r => decide (dictGet r "numart" = some (.vstr numart))) with
          | some _ =>
              replaceFirst (fun r => decide (dictGet r "numart" = some (.vstr numart)))
                (fun r => update_product_row fields r rec) db
          | none => db ++ [product_insert_data rec]

lemma dictGet_dictInsert_self (d : Row) (k : String) (v : PyVal) :
    dictGet (dictInsert d k v) k = some v := by
  induction d with
  | nil => simp [dictInsert, dictGet]
  | cons kv rest ih =>
      obtain ⟨k', v'⟩ := kv
      by_cases h : k' = k
      · simp [dictInsert, h, dictGet]
      · simp [dictInsert, h, dictGet, ih]

lemma dictGet_dictInsert_ne (d : Row) (k k' : String) (v : PyVal) (h : k ≠ k') :
    dictGet (dictInsert d k v) k' = dictGet d k' := by
  induction d with
  | nil => simp [dictInsert, dictGet, h]
  | cons kv rest ih =>
      obtain ⟨k₀, v₀⟩ := kv
      by_cases h0 : k₀ = k
      · simp [dictInsert, h0, dictGet, h]
      · simp only [dictInsert, h0, if_false, dictGet]
        by_cases h1 : k₀ = k' <;> simp [h1, ih]

/-- Folding dict assignments whose keys all differ from `key` leaves the
entry at `key` unread. -/
lemma dictGet_foldl_notmem (f : String → String) (g : PyVal → PyVal)
    (rec : Row) (d : Row) (key : String)
    (h : ∀ kv ∈ rec, f kv.1 ≠ key) :
    dictGet (rec.foldl (fun acc kv => dictInsert acc (f kv.1) (g kv.2)) d) key =
      dictGet d key := by
  induction rec generalizing d with
  | nil => rfl
  | cons kv rest ih =>
      rw [List.foldl_cons, ih _ (fun x hx => h x (List.mem_cons_of_mem _ hx))]
      exact dictGet_dictInsert_ne _ _ _ _ (h kv (List.mem_cons_self _ _))

/-- Building a dict by folding key-transformed, value-transformed assignments:
when the transformed keys are distinct, each source entry is retrievable. -/
lemma dictGet_foldl_build (f : String → String) (g : PyVal → PyVal)
    (rec : Row) (d : Row) (k : String) (v : PyVal)
    (hnd : (rec.map (fun kv => f kv.1)).Nodup) (hmem : (k, v) ∈ rec) :
    dictGet (rec.foldl (fun acc kv => dictInsert acc (f kv.1) (g kv.2)) d) (f k) =
      some (g v) := by
  induction rec generalizing d with
  | nil => cases hmem
  | cons kv rest ih =>
      rw [List.map_cons, List.nodup_cons] at hnd
      rcases hnd with ⟨hk0, hrest⟩
      rcases List.mem_cons.mp hmem with heq | hmem'
      · rw [← heq] at hk0 ⊢
        rw [List.foldl_cons]
        rw [dictGet_foldl_notmem f g rest _ (f k)
          (fun x hx hfx => hk0 (hfx ▸ List.mem_map_of_mem _ hx))]
        exact dictGet_dictInsert_self _ _ _
      · rw [List.foldl_cons]
        exact ih _ hrest hmem'


/-- C7 counterexample: at the concrete product record
`{NUMART: "A1", DESC: " x "}` the stored `desc_product` value is the raw
string `" x "`, not its trimmed form (the product path cleans nothing); and at
the concrete customer record `{NUMCLI: "C1", DESC: "d", NOMCLI: " "}` the
whitespace-only `NOMCLI` is stored as `""` rather than null, and `DESC` lands
in column `desc` — customers get no `desc_product` rename. -/
theorem upsert_normalization_counterexample :
    dictGet (product_insert_data [("NUMART", .vstr "A1"), ("DESC", .vstr " x ")])
        "desc_product" = some (.vstr " x ") ∧
    stripStr " x " = "x" ∧ PyVal.vstr " x " ≠ .vstr "x" ∧
    dictGet (customer_insert_data
        [("NUMCLI", .vstr "C1"), ("DESC", .vstr "d"), ("NOMCLI", .vstr " ")] "C1")
        "nomcli" = some (.vstr "") ∧
    PyVal.vstr "" ≠ .vnone ∧
    dictGet (customer_insert_data
        [("NUMCLI", .vstr "C1"), ("DESC", .vstr "d"), ("NOMCLI", .vstr " ")] "C1")
        "desc_product" = none ∧
    dictGet (customer_insert_data
        [("NUMCLI", .vstr "C1"), ("DESC", .vstr "d"), ("NOMCLI", .vstr " ")] "C1")
        "desc" = some (.vstr "d") := by
  refine ⟨by decide, by decide, by decide, by decide, by decide, by decide, by decide⟩

/-- C7 amended: on the insert paths, product columns get the
`DESC ↦ desc_product`, `SERIES ↦ series_control`, otherwise-lower-cased names
with values stored unmodified; customer columns get plainly lower-cased names
(no renames) with `numcli` overridden, and customer string values are cleaned
by: empty string becomes null, non-empty strings are stripped (so a
whitespace-only string becomes the empty string, not null); non-string values
pass through. -/
theorem upsert_insert_normalization (rec : Row) (numcli : String) :
    (∀ k v, ((rec.map fun kv => field_mapping kv.1).Nodup) → (k, v) ∈ rec →
      dictGet (product_insert_data rec) (field_mapping k) = some v) ∧
    (∀ k v, ((rec.map fun kv => lowerStr kv.1).Nodup) → (k, v) ∈ rec →
      lowerStr k ≠ "numcli" →
      dictGet (customer_insert_data rec numcli) (lowerStr k) =
        some (clean_string_value v)) ∧
    dictGet (customer_insert_data rec numcli) "numcli" = some (.vstr numcli) ∧
    clean_string_value (.vstr "") = .vnone ∧
    (∀ s : String, s ≠ "" → clean_string_value (.vstr s) = .vstr (stripStr s)) ∧
    (∀ n : Int, clean_string_value (.vint n) = .vint n) ∧
    clean_string_value .vnone = .vnone := by
  refine ⟨?_, ?_, ?_, by simp [clean_string_value], ?_, fun n => rfl, rfl⟩
  · intro k v hnd hmem
    have h := dictGet_foldl_build field_mapping id rec [] k v hnd hmem
    simpa [product_insert_data] using h
  · intro k v hnd hmem hne
    have h := dictGet_foldl_build (fun s => lowerStr s) clean_string_value rec [] k v hnd hmem
    rw [customer_insert_data, dictGet_dictInsert_ne _ _ _ _ (Ne.symm (by simpa using hne))]
    exact h
  · exact dictGet_dictInsert_self _ _ _
  · intro s hs
    simp [clean_string_value, hs]

/-- Witness for the amended C7 at concrete records: the product path stores
`DESC`'s raw value under `desc_product`; the customer path stores the cleaned
value of `NOMCLI` under `nomcli` and the key override under `numcli`. -/
theorem upsert_insert_normalization_witness :
    dictGet (product_insert_data [("NUMART", .vstr "A1"), ("DESC", .vstr " x ")])
        (field_mapping "DESC") = some (.vstr " x ") ∧
    dictGet (customer_insert_data [("NOMCLI", .vstr " a ")] "C1")
        (lowerStr "NOMCLI") = some (clean_string_value (.vstr " a ")) ∧
    dictGet (customer_insert_data [("NOMCLI", .vstr " a ")] "C1") "numcli" =
      some (.vstr "C1") :=
  ⟨(upsert_insert_normalization [("NUMART", .vstr "A1"), ("DESC", .vstr " x ")] "C1").1
      "DESC" (.vstr " x ") (by decide) (by decide),
   (upsert_insert_normalization [("NOMCLI", .vstr " a ")] "C1").2.1
      "NOMCLI" (.vstr " a ") (by decide) (by decide) (by decide),
   (upsert_insert_normalization [("NOMCLI", .vstr " a ")] "C1").2.2.1⟩

/-- C8: a customer or product record whose natural-key field is absent, falsy
(empty), or whitespace-only after stripping is silently skipped: the table is
returned unchanged.  Both upsert embeddings are total functions, so no
exception can propagate out of the skipped record. -/
theorem upsert_skips_empty_natural_key (fields : List String) (db : List Row)
    (rec : Row) :
    ((dictGet rec "NUMCLI" = none ∨
        ∃ v, dictGet rec "NUMCLI" = some v ∧
          (truthy v = false ∨ stripStr (pyToString v) = "")) →
      _upsert_customer fields db rec = db) ∧
    ((dictGet rec "NUMART" = none ∨
        ∃ v, dictGet rec "NUMART" = some v ∧
          (truthy v = false ∨ stripStr (pyToString v) = "")) →
      _upsert_product fields db rec = db) := by
  constructor
  · rintro (hnone | ⟨v, hv, hskip⟩)
    · simp [_upsert_customer, hnone]
    · rcases hskip with ht | hs
      · simp [_upsert_customer, hv, ht]
      · by_cases ht : truthy v = false <;> simp [_upsert_customer, hv, ht, hs]
  · rintro (hnone | ⟨v, hv, hskip⟩)
    · simp [_upsert_product, hnone]
    · rcases hskip with ht | hs
      · simp [_upsert_product, hv, ht]
      · by_cases ht : truthy v = false <;> simp [_upsert_product, hv, ht, hs]

/-- Witness for C8 at concrete records: a whitespace-only `NUMCLI` and an
empty `NUMART` are both skipped against a non-empty table. -/
theorem upsert_skips_empty_natural_key_witness :
    _upsert_customer ["numcli"] [[("numcli", .vstr "X")]]
        [("NUMCLI", .vstr " ")] = [[("numcli", .vstr "X")]] ∧
    _upsert_product ["numart"] [[("numart", .vstr "Y")]]
        [("NUMART", .vstr "")] = [[("numart", .vstr "Y")]] :=
  ⟨(upsert_skips_empty_natural_key ["numcli"] [[("numcli", .vstr "X")]]
      [("NUMCLI", .vstr " ")]).1
      (Or.inr ⟨.vstr " ", by decide, Or.inr (by decide)⟩),
   (upsert_skips_empty_natural_key ["numart"] [[("numart", .vstr "Y")]]
      [("NUMART", .vstr "")]).2
      (Or.inr ⟨.vstr "", by decide, Or.inl (by decide)⟩)⟩

/-! ## Applying a delta (src/dbf/sync.py, `_apply_changes` / `_delete_record`)

`_apply_changes` (sync.py lines 135–162) reads all records, walks
`deltas['deletes']` first (each via `_delete_record`, which only logs), then
walks `deltas['inserts'] + deltas['updates']`, upserting the record at each
index that is in bounds, and finally issues one `db.commit()`.  The embedding
records the traversal order, the indices and records handed to the upsert, the
`records_processed` counter, and the SQL operations emitted. -/

/-- The three entity tables the sync engine writes. -/
structure TargetTables where
  customers : List Row
  products : List Row
  movements : List Row
deriving DecidableEq

/-- An SQL-level operation emitted while applying a delta. -/
inductive SqlOp
  | insertOrUpdate (idx : ℕ)
  | deleteRow (idx : ℕ)
  | commitTx
  | rollbackTx
deriving DecidableEq

/-- `DBFSyncService._delete_record` (sync.py lines 264–268): the body is a
single `logger.warning`; it issues no SQL and returns — tables, SQL trace,
log lines. -/
def _delete_record (db : TargetTables) (table_name : String) (record_index : ℕ) :
    TargetTables × List SqlOp × List String :=
  (db, [],
    ["Delete operation not implemented for " ++ table_name ++ " at index " ++
      toString record_index])

/-- Accumulated outcome of `_apply_changes`. -/
structure ApplyOutcome where
  order : List ℕ
  deletedIdxs : List ℕ
  upsertIdxs : List ℕ
  upsertRecords : List Row
  processed : ℕ
  ops : List SqlOp
deriving DecidableEq

/-- One iteration of the deletes loop (sync.py lines 145–147): call
`_delete_record` — which changes nothing and emits no SQL — and increment
`records_processed`. -/
def deleteLoop (st : ApplyOutcome) (i : ℕ) : ApplyOutcome :=
  { st with
    order := st.order ++ [i]
    deletedIdxs := st.deletedIdxs ++ [i]
    processed := st.processed + 1 }

/-- One iteration of the inserts+updates loop (sync.py lines 150–154): only
when `record_index < len(all_records)` fetch the record, upsert it and
increment `records_processed`; otherwise skip silently. -/
def upsertLoop (all_records : List Row) (st : ApplyOutcome) (i : ℕ) :
    ApplyOutcome :=
  if h : i < all_records.length then
    { st with
      order := st.order ++ [i]
      upsertIdxs := st.upsertIdxs ++ [i]
      upsertRecords := st.upsertRecords ++ [all_records.get ⟨i, h⟩]
      processed := st.processed + 1
      ops := st.ops ++ [.insertOrUpdate i] }
  else st

/-- `DBFSyncService._apply_changes` (sync.py lines 135–162), success path:
deletes first, then inserts + updates, then a single `db.commit()`.  The
exception path (rollback and re-raise) is modelled in the per-file sync
state machine below. -/
def _apply_changes (deltas : Deltas) (all_records : List Row) : ApplyOutcome :=
  let st0 : ApplyOutcome := ⟨[], [], [], [], 0, []⟩
  let st1 := deltas.deletes.foldl deleteLoop st0
  let st2 := (deltas.inserts ++ deltas.updates).foldl (upsertLoop all_records) st1
  { st2 with ops := st2.ops ++ [.commitTx] }

lemma foldl_deleteLoop (l : List ℕ) (st : ApplyOutcome) :
    l.foldl deleteLoop st =
      { st with
        order := st.order ++ l
        deletedIdxs := st.deletedIdxs ++ l
        processed := st.processed + l.length } := by
  induction l generalizing st with
  | nil => simp
  | cons i l ih =>
      rw [List.foldl_cons, ih]
      simp [deleteLoop, List.append_assoc]
      omega

lemma foldl_upsertLoop (all_records : List Row) (l : List ℕ) (st : ApplyOutcome) :
    l.foldl (upsertLoop all_records) st =
      { st with
        order := st.order ++ l.filter (fun i => decide (i < all_records.length))
        upsertIdxs :=
          st.upsertIdxs ++ l.filter (fun i => decide (i < all_records.length))
        upsertRecords := st.upsertRecords ++ l.filterMap all_records.get?
        processed :=
          st.processed + (l.filter (fun i => decide (i < all_records.length))).length
        ops := st.ops ++
          (l.filter (fun i => decide (i < all_records.length))).map .insertOrUpdate } := by
  induction l generalizing st with
  | nil => simp
  | cons i l ih =>
      rw [List.foldl_cons, ih]
      by_cases h : i < all_records.length
      · rw [upsertLoop, dif_pos h]
        simp [h, List.get?_eq_get h, List.append_assoc]
        omega
      · rw [upsertLoop, dif_neg h]
        have hg : all_records[i]? = none := List.getElem?_eq_none (by omega)
        simp [h, hg, List.filterMap_cons, List.get?_eq_getElem?]

/-- A concrete one-record snapshot `{0: 1}`. -/
def oldCm : ChecksumMap := ⟨{0}, fun _ => 1⟩

/-- A concrete two-record snapshot `{0: 2, 1: 5}`: record 0 changed, record 1
appended, relative to `oldCm`. -/
def newCm : ChecksumMap := ⟨{0, 1}, fun k => if k = 0 then 2 else 5⟩

lemma compute_deltas_oldCm_newCm :
    compute_deltas oldCm newCm = ⟨[1], [0], []⟩ := by
  have hins : newCm.keys \ oldCm.keys = {1} := by
    ext a
    simp [oldCm, newCm]
    omega
  have hdel : oldCm.keys \ newCm.keys = ∅ := by
    ext a
    simp [oldCm, newCm]
    omega
  have hupd : (oldCm.keys ∩ newCm.keys).filter
      (fun idx => oldCm.val idx ≠ newCm.val idx) = {0} := by
    ext a
    by_cases ha : a = 0 <;> simp [oldCm, newCm, ha]
  simp only [compute_deltas, hins, hdel, hupd, Finset.sort_singleton,
    Finset.sort_empty]

/-- Closed form of `_apply_changes`: deletes traversed first, then the
in-bounds inserts+updates, one commit at the end. -/
lemma apply_changes_eq (deltas : Deltas) (all_records : List Row) :
    _apply_changes deltas all_records =
      { order := deltas.deletes ++ (deltas.inserts ++ deltas.updates).filter
          (fun i => decide (i < all_records.length))
        deletedIdxs := deltas.deletes
        upsertIdxs := (deltas.inserts ++ deltas.updates).filter
          (fun i => decide (i < all_records.length))
        upsertRecords := (deltas.inserts ++ deltas.updates).filterMap all_records.get?
        processed := deltas.deletes.length + ((deltas.inserts ++ deltas.updates).filter
          (fun i => decide (i < all_records.length))).length
        ops := ((deltas.inserts ++ deltas.updates).filter
          (fun i => decide (i < all_records.length))).map .insertOrUpdate ++
            [.commitTx] } := by
  rw [_apply_changes, foldl_deleteLoop, foldl_upsertLoop]
  simp

/-- C5 counterexample: with old snapshot `{0: 1}` and new snapshot
`{0: 2, 1: 5}` the delta has `inserts = [1]`, `updates = [0]`, and the engine
traverses the concatenation `[1, 0]` — the combined insert∪update sequence is
not in ascending record-index order. -/
theorem apply_changes_not_globally_ascending :
    ¬ List.Sorted (· ≤ ·)
      ((_apply_changes (compute_deltas oldCm newCm) [[], []]).upsertIdxs) := by
  rw [compute_deltas_oldCm_newCm]
  decide

/-- C5 amended: deletes are processed first, then the inserts (ascending),
then the updates (ascending) — the two groups concatenated, not merged into
one ascending sequence — and the whole group ends in exactly one SQL commit
and no rollback. -/
theorem apply_changes_order (old_checksums new_checksums : ChecksumMap)
    (all_records : List Row) :
    let d := compute_deltas old_checksums new_checksums
    let o := _apply_changes d all_records
    o.order = o.deletedIdxs ++ o.upsertIdxs ∧
    o.deletedIdxs = d.deletes ∧
    o.upsertIdxs =
      d.inserts.filter (fun i => decide (i < all_records.length)) ++
        d.updates.filter (fun i => decide (i < all_records.length)) ∧
    List.Sorted (· < ·) o.deletedIdxs ∧
    List.Sorted (· < ·) (d.inserts.filter (fun i => decide (i < all_records.length))) ∧
    List.Sorted (· < ·) (d.updates.filter (fun i => decide (i < all_records.length))) ∧
    o.ops.count .commitTx = 1 ∧ o.ops.getLast? = some .commitTx ∧
    SqlOp.rollbackTx ∉ o.ops := by
  intro d o
  have ho : o = _apply_changes d all_records := rfl
  rw [apply_changes_eq] at ho
  have hsorted : List.Sorted (· < ·) d.inserts ∧ List.Sorted (· < ·) d.updates ∧
      List.Sorted (· < ·) d.deletes :=
    ⟨Finset.sort_sorted_lt _, Finset.sort_sorted_lt _, Finset.sort_sorted_lt _⟩
  refine ⟨?_, ?_, ?_, ?_, ?_, ?_, ?_, ?_, ?_⟩
  · rw [ho]
  · rw [ho]
  · rw [ho]
    simp [List.filter_append]
  · rw [ho]
    exact hsorted.2.2
  · exact List.Pairwise.filter _ hsorted.1
  · exact List.Pairwise.filter _ hsorted.2.1
  · rw [ho]
    simp only [List.count_append]
    rw [List.count_eq_zero.mpr (by simp)]
    decide
  · rw [ho]
    exact List.getLast?_concat _
  · rw [ho]
    simp

/-- C6: processing a delete executes no SQL: `_delete_record` returns the
three target tables unchanged, emits no SQL operation (only one warning log
line), and the SQL trace of an entire `_apply_changes` run never contains a
row deletion. -/
theorem delete_record_executes_no_sql (db : TargetTables) (table_name : String)
    (record_index : ℕ) (deltas : Deltas) (all_records : List Row) :
    (_delete_record db table_name record_index).1 = db ∧
    (_delete_record db table_name record_index).2.1 = [] ∧
    (_delete_record db table_name record_index).2.2.length = 1 ∧
    (∀ j, SqlOp.deleteRow j ∉ (_apply_changes deltas all_records).ops) := by
  refine ⟨rfl, rfl, rfl, ?_⟩
  intro j hmem
  rw [apply_changes_eq] at hmem
  simp at hmem

/-- C10: every insert/update index at or beyond `len(all_records)` is skipped
by the bound guard before indexing — so each upserted index is in range, the
upserted records are exactly the in-range lookups, and skipped indices are
not counted in `records_processed` (which otherwise counts every delete and
every in-range upsert). -/
theorem apply_changes_bounds_guard (deltas : Deltas) (all_records : List Row) :
    let o := _apply_changes deltas all_records
    o.upsertIdxs = (deltas.inserts ++ deltas.updates).filter
      (fun i => decide (i < all_records.length)) ∧
    (∀ i ∈ o.upsertIdxs, i < all_records.length) ∧
    o.upsertRecords = (deltas.inserts ++ deltas.updates).filterMap all_records.get? ∧
    o.processed = deltas.deletes.length + o.upsertIdxs.length := by
  intro o
  have ho : o = _apply_changes deltas all_records := rfl
  rw [apply_changes_eq] at ho
  refine ⟨?_, ?_, ?_, ?_⟩
  · rw [ho]
  · intro i hi
    rw [ho] at hi
    simp only [List.mem_filter, decide_eq_true_eq] at hi
    exact hi.2
  · rw [ho]
  · rw [ho]

/-! ## Per-file sync (src/dbf/sync.py, `process_dbf_file`)

The SQLAlchemy session is a pair (committed, pending); `db.commit()` promotes
pending to committed, `db.rollback()` discards pending.  `json.dumps` /
`json.loads` of the checksum map (with the string↔int key cast at sync.py
line 60) round-trip, so the stored snapshot is modelled as the map itself.
Timestamps (`last_modified`, `last_processed`, `duration_ms`) carry no claim
content and are omitted.  Exceptions are injected at the three fallible
program points of steps 2–6: the reader call (line 52), `_apply_changes`
(line 77, which rolls back and re-raises, lines 158–160), and the
`Path(file_path).stat()` call (line 84) that runs after the snapshot
assignment (line 82). -/

/-- `processing_status` values. -/
inductive PStatus
  | PENDING
  | PROCESSING
  | COMPLETED
  | ERROR
deriving DecidableEq

/-- The `dbf_file_state` row for the file being synced. -/
structure FileStateRow where
  checksum_map : Option (List (ℕ × ℕ))
  record_count : ℕ
  processing_status : PStatus
  error_message : Option String
deriving DecidableEq

/-- A `sync_log` row (claim-relevant columns). -/
structure SyncLogRow where
  success : Bool
  error_message : Option String
deriving DecidableEq

/-- Database state touched by one file's sync: its file-state row, the
sync-log journal, and the indices whose upserts have reached the entity
tables. -/
structure DBState where
  file_state : FileStateRow
  sync_logs : List SyncLogRow
  applied : List ℕ
deriving DecidableEq

/-- An open SQL session over `DBState`. -/
structure SqlSession where
  committed : DBState
  pending : DBState
deriving DecidableEq

/-- `db.commit()`. -/
def commit (s : SqlSession) : SqlSession := ⟨s.pending, s.pending⟩

/-- `db.rollback()`. -/
def rollback (s : SqlSession) : SqlSession := ⟨s.committed, s.committed⟩

/-- A stored checksum dict as the delta detector's map view: its key set and
the value read per key. -/
def dictToChecksumMap (l : List (ℕ × ℕ)) : ChecksumMap :=
  ⟨(l.map Prod.fst).toFinset, fun k => (List.lookup k l).getD 0⟩

/-- The injected exception points of steps 2–6. -/
inductive SyncFailure
  | atChecksum
  | atApply
  | atStat
deriving DecidableEq

/-- `file_state.processing_status = 'PROCESSING'; db.commit()`
(sync.py lines 47–48). -/
def markProcessing (s : SqlSession) : SqlSession :=
  commit { s with pending :=
    { s.pending with file_state :=
      { s.pending.file_state with processing_status := .PROCESSING } } }

/-- The `except` block of `process_dbf_file` (sync.py lines 109–130): set
`processing_status = ERROR` and `error_message`, append a failed sync-log
row, and `db.commit()` — with no rollback. -/
def syncErrorHandler (msg : String) (s : SqlSession) : SqlSession :=
  commit { s with pending :=
    { s.pending with
      file_state :=
        { s.pending.file_state with
          processing_status := .ERROR
          error_message := some msg }
      sync_logs := s.pending.sync_logs ++ [⟨false, some msg⟩] } }

/-- `process_dbf_file` from the delta computation on (sync.py lines 70–130):
if there are changes, `_apply_changes` (rolling back and re-raising on its
own failure, with its final commit otherwise), then the snapshot assignment,
then the fallible `stat()`, then `COMPLETED` plus the success log row and the
final commit; with no changes, `COMPLETED` and commit. -/
def process_after_deltas (s : SqlSession) (current_checksums : List (ℕ × ℕ))
    (all_records : List Row) (deltas : Deltas) (fail : Option SyncFailure) :
    DBState :=
  if has_changes deltas then
    if fail = some .atApply then
      (syncErrorHandler "apply error" (rollback s)).committed
    else
      let s := commit { s with pending :=
        { s.pending with applied :=
            s.pending.applied ++ (_apply_changes deltas all_records).upsertIdxs } }
      let s := { s with pending :=
        { s.pending with file_state :=
          { s.pending.file_state with
            checksum_map := some current_checksums
            record_count := current_checksums.length } } }
      if fail = some .atStat then (syncErrorHandler "stat error" s).committed
      else
        let s := { s with pending :=
          { s.pending with
            file_state :=
              { s.pending.file_state with processing_status := .COMPLETED }
            sync_logs := s.pending.sync_logs ++ [⟨true, none⟩] } }
        (commit s).committed
  else
    let s := { s with pending :=
      { s.pending with file_state :=
        { s.pending.file_state with processing_status := .COMPLETED } } }
    (commit s).committed

/-- `DBFSyncService.process_dbf_file` (sync.py lines 22–133) for a file whose
state row exists: mark `PROCESSING` and commit, compute checksums (fallible),
load the previous snapshot, compute deltas, then continue as
`process_after_deltas`. -/
def process_dbf_file (init : DBState) (current_checksums : List (ℕ × ℕ))
    (all_records : List Row) (fail : Option SyncFailure) : DBState :=
  let s := markProcessing ⟨init, init⟩
  if fail = some .atChecksum then
    (syncErrorHandler "checksum error" s).committed
  else
    process_after_deltas s current_checksums all_records
      (compute_deltas (dictToChecksumMap (init.file_state.checksum_map.getD []))
        (dictToChecksumMap current_checksums)) fail

/-- A committed pre-sync state: snapshot `{0: 1}`, `COMPLETED`, no error, an
empty journal. -/
def initC2 : DBState :=
  ⟨⟨some [(0, 1)], 1, .COMPLETED, none⟩, [], []⟩

lemma compute_deltas_dictC2 :
    compute_deltas (dictToChecksumMap [(0, 1)])
      (dictToChecksumMap [(0, 2), (1, 5)]) = ⟨[1], [0], []⟩ := by
  have hins : (dictToChecksumMap [(0, 2), (1, 5)]).keys \
      (dictToChecksumMap [(0, 1)]).keys = {1} := by
    ext a
    simp [dictToChecksumMap]
    omega
  have hdel : (dictToChecksumMap [(0, 1)]).keys \
      (dictToChecksumMap [(0, 2), (1, 5)]).keys = ∅ := by
    ext a
    simp [dictToChecksumMap]
    omega
  have hupd : ((dictToChecksumMap [(0, 1)]).keys ∩
        (dictToChecksumMap [(0, 2), (1, 5)]).keys).filter
      (fun idx => (dictToChecksumMap [(0, 1)]).val idx ≠
        (dictToChecksumMap [(0, 2), (1, 5)]).val idx) = {0} := by
    ext a
    by_cases ha : a = 0 <;> simp [dictToChecksumMap, ha, List.lookup]
  simp only [compute_deltas, hins, hdel, hupd, Finset.sort_singleton,
    Finset.sort_empty]

/-- C2 counterexample: sync of snapshot `{0: 1}` against checksums
`{0: 2, 1: 5}` with the exception raised at the `stat()` call of the state
update — after `_apply_changes` committed and after the snapshot assignment.
The error handler then commits the already-assigned new snapshot: the stored
`checksum_map` is NOT left at its pre-sync value even though the status is
`ERROR` and a `success=false` log row was appended. -/
theorem sync_error_commits_new_snapshot :
    (process_dbf_file initC2 [(0, 2), (1, 5)] [[], []] (some .atStat)).file_state.checksum_map =
      some [(0, 2), (1, 5)] ∧
    (process_dbf_file initC2 [(0, 2), (1, 5)] [[], []] (some .atStat)).file_state.checksum_map ≠
      initC2.file_state.checksum_map ∧
    (process_dbf_file initC2 [(0, 2), (1, 5)] [[], []] (some .atStat)).file_state.processing_status =
      .ERROR ∧
    (process_dbf_file initC2 [(0, 2), (1, 5)] [[], []] (some .atStat)).sync_logs =
      [⟨false, some "stat error"⟩] := by
  have h : process_dbf_file initC2 [(0, 2), (1, 5)] [[], []] (some .atStat) =
      process_after_deltas (markProcessing ⟨initC2, initC2⟩) [(0, 2), (1, 5)]
        [[], []] ⟨[1], [0], []⟩ (some .atStat) := by
    rw [process_dbf_file, if_neg (by decide)]
    rw [show initC2.file_state.checksum_map.getD [] = [(0, 1)] from rfl]
    rw [compute_deltas_dictC2]
  rw [h]
  refine ⟨?_, ?_, ?_, ?_⟩ <;> decide

/-- C2 amended: when the exception is raised during checksum computation or
during delta application, the file ends `ERROR` with `error_message` set, a
`success=false` sync-log row is appended and committed, no entity-table
change survives (delta application rolls its transaction back; the outer
handler itself never calls rollback), and the stored snapshot equals its
pre-sync value.  (Per the counterexample, an exception after the snapshot
assignment — e.g. at `stat()` — instead commits the new snapshot, so the
claim's snapshot-preservation does not extend to the whole of steps 2–6.) -/
theorem sync_error_preserves_snapshot (init : DBState)
    (current_checksums : List (ℕ × ℕ)) (all_records : List Row)
    (fail : Option SyncFailure)
    (h : fail = some .atChecksum ∨
      (fail = some .atApply ∧
        has_changes (compute_deltas
          (dictToChecksumMap (init.file_state.checksum_map.getD []))
          (dictToChecksumMap current_checksums)) = true)) :
    (process_dbf_file init current_checksums all_records fail).file_state.checksum_map =
      init.file_state.checksum_map ∧
    (process_dbf_file init current_checksums all_records fail).file_state.processing_status =
      .ERROR ∧
    (process_dbf_file init current_checksums all_records fail).file_state.error_message ≠
      none ∧
    (process_dbf_file init current_checksums all_records fail).applied = init.applied ∧
    ∃ msg, (process_dbf_file init current_checksums all_records fail).sync_logs =
      init.sync_logs ++ [⟨false, some msg⟩] := by
  rcases h with h | ⟨h, hch⟩
  · subst h
    refine ⟨rfl, rfl, by simp [process_dbf_file, markProcessing, syncErrorHandler, commit], rfl,
      "checksum error", rfl⟩
  · subst h
    rw [process_dbf_file, if_neg (by decide), process_after_deltas, if_pos hch,
      if_pos rfl]
    exact ⟨rfl, rfl, by simp [markProcessing, syncErrorHandler, commit, rollback], rfl,
      "apply error", rfl⟩

/-- Witness for the amended C2 at a concrete failing sync: checksum
computation fails over `initC2`; everything, snapshot included, is preserved
except the `ERROR` marking and the appended failure log row. -/
theorem sync_error_preserves_snapshot_witness :
    (process_dbf_file initC2 [(0, 2), (1, 5)] [[], []] (some .atChecksum)).file_state.checksum_map =
      some [(0, 1)] ∧
    (process_dbf_file initC2 [(0, 2), (1, 5)] [[], []] (some .atChecksum)).file_state.processing_status =
      .ERROR ∧
    (process_dbf_file initC2 [(0, 2), (1, 5)] [[], []] (some .atChecksum)).applied = [] :=
  have h := sync_error_preserves_snapshot initC2 [(0, 2), (1, 5)] [[], []]
    (some .atChecksum) (Or.inl rfl)
  ⟨h.1, h.2.1, h.2.2.2.1⟩

/-! ## File watcher (src/dbf/watcher.py, `DBFFileHandler`)

`on_modified` runs synchronously per filesystem event and ends in
`asyncio.create_task(self._process_file(...))`; the created task only adds the
path to the in-flight set `self.processing` once it starts running
(watcher.py line 59), and removes it in its `finally` block (line 70).  The
interleaving of event handling and task starts is modelled as a step relation:
`modify` is one `on_modified` call, `start` is a created task beginning to run
(one sync pass), `finish` is its `finally` block. -/

/-- Characters after the last `'.'` of a name, `none` when it has no dot. -/
def lastExt : List Char → Option (List Char) → Option (List Char)
  | [], acc => acc
  | c :: rest, acc =>
      if c = '.' then lastExt rest (some [])
      else lastExt rest (acc.map (fun e => e ++ [c]))

/-- `Path(p).suffix` for plain file names: the final extension with its dot,
empty when there is none. -/
def pathSuffix (name : String) : String :=
  match lastExt name.data none with
  | none => ""
  | some [] => ""
  | some e => "." ++ ⟨e⟩

/-- Python `str.upper()` (ASCII data). -/
def upperStr (s : String) : String := ⟨s.data.map Char.toUpper⟩

/-- The target list of `_should_process_file` (watcher.py line 52). -/
def target_files : List String := ["clientes.dbf", "arts.dbf", "movim.dbf"]

/-- `DBFFileHandler._should_process_file` (watcher.py lines 47–54). -/
def _should_process_file (name : String) : Bool :=
  target_files.contains (lowerStr name)

/-- Watcher handler state: the in-flight set, the created-but-not-yet-started
tasks, and the number of sync passes begun. -/
structure WatcherState where
  processing : List String
  pending_tasks : List String
  passes : ℕ
deriving DecidableEq

/-- One interleaving step: an `on_modified` call, a created task starting, or
a task's `finally` block running. -/
inductive WatchEvent
  | modify (is_directory : Bool) (path : String)
  | start (path : String)
  | finish (path : String)
deriving DecidableEq

/-- `DBFFileHandler.on_modified` (watcher.py lines 21–45): ignore directories,
non-`.DBF` suffixes and non-target names; drop the event when the path is
already in the in-flight set; otherwise create a task. -/
def on_modified (s : WatcherState) (is_directory : Bool) (path : String) :
    WatcherState :=
  if is_directory then s
  else if upperStr (pathSuffix path) ≠ ".DBF" then s
  else if !_should_process_file path then s
  else if s.processing.contains path then s
  else { s with pending_tasks := s.pending_tasks ++ [path] }

/-- A created `_process_file` task starts (watcher.py lines 56–65): it adds
its path to the in-flight set, debounces, and invokes one sync pass. -/
def taskStart (s : WatcherState) (path : String) : WatcherState :=
  if s.pending_tasks.contains path then
    { s with
      pending_tasks := s.pending_tasks.erase path
      processing := path :: s.processing
      passes := s.passes + 1 }
  else s

/-- The task's `finally` block (watcher.py lines 69–70): discard the path
from the in-flight set. -/
def taskFinish (s : WatcherState) (path : String) : WatcherState :=
  { s with processing := s.processing.erase path }

/-- The interleaving step relation of the handler. -/
def watchStep (s : WatcherState) : WatchEvent → WatcherState
  | .modify d p => on_modified s d p
  | .start p => taskStart s p
  | .finish p => taskFinish s p

/-- A run of the handler over a sequence of interleaving steps. -/
def watchRun (s : WatcherState) (evs : List WatchEvent) : WatcherState :=
  evs.foldl watchStep s

/-- The handler's initial state: empty in-flight set, no tasks, no passes. -/
def watcherInit : WatcherState := ⟨[], [], 0⟩

/-- C9 counterexample: three back-to-back modify events for
`clientes.dbf` all handled before any created task starts running (the
in-flight set is only updated by the task itself) spawn three tasks, and the
run performs three sync passes — one per event, more than the claimed two. -/
theorem watcher_coalescing_counterexample :
    (watchRun watcherInit
      [.modify false "clientes.dbf", .modify false "clientes.dbf",
       .modify false "clientes.dbf", .start "clientes.dbf",
       .start "clientes.dbf", .start "clientes.dbf"]).passes = 3 := by
  decide

/-- C9 amended: an event for a path that is in the in-flight set is dropped —
the handler state is unchanged, so no task and no pass can come of it.  The
set is only entered when a created task starts, so events handled before any
task starts each create a task of their own (see the counterexample); once a
pass is in flight, further events for its path are dropped. -/
theorem watcher_drops_in_flight_events (s : WatcherState) (path : String)
    (h : s.processing.contains path = true) :
    watchStep s (.modify false path) = s := by
  show on_modified s false path = s
  unfold on_modified
  split_ifs <;> rfl

/-- Witness for the amended C9: with `clientes.dbf` in flight, a further
modify event for it leaves the handler state untouched. -/
theorem watcher_drops_in_flight_events_witness :
    watchStep ⟨["clientes.dbf"], [], 1⟩ (.modify false "clientes.dbf") =
      ⟨["clientes.dbf"], [], 1⟩ :=
  watcher_drops_in_flight_events ⟨["clientes.dbf"], [], 1⟩ "clientes.dbf"
    (by decide)

end DbfToSql
